import Mathlib

/-!
Shallow embedding of the DMA hardware-abstraction layer in src/hal.rs of the
virtio-drivers repository.

The `Hal` trait is embedded as a structure of pure functions (the platform
implementation is a parameter), `Dma::new` and the `Drop` implementation are
instrumented with the list of Hal calls they perform, `raw_slice` returns an
`Option` that is `none` exactly on the `NonNull::new(...).unwrap()` panic path,
and usize multiplication is reduced modulo `2 ^ 64`.
-/

/-- Modelled from the spec: the fixed page-size constant `PAGE_SIZE` imported
from the crate root (which is not under src/); the concrete scenario in the
spec fixes it at 4096 bytes. -/
def PAGE_SIZE : Nat := 4096

/-- Number of values of the 64-bit `usize` type of the target platform;
machine-integer products are reduced modulo this constant. -/
def USIZE : Nat := 2 ^ 64

/-- Modelled from the spec: the crate-level `Error` type imported from the
crate root (which is not under src/); only the DMA allocation-failure variant
is ever produced by the code in src/hal.rs. -/
inductive Error where
  | DmaError
deriving DecidableEq

/-- The direction in which a buffer is passed (enum `BufferDirection` in
src/hal.rs). -/
inductive BufferDirection where
  | DriverToDevice
  | DeviceToDriver
  | Both
deriving DecidableEq

/-- A physical address as used for virtio (`pub type PhysAddr = usize`). -/
abbrev PhysAddr := Nat

/-- A virtual memory address in the address space of the program
(`pub type VirtAddr = usize`). -/
abbrev VirtAddr := Nat

/-- One call into the `Hal` trait, recorded so that allocation behaviour can
be traced. -/
inductive HCall where
  | alloc (pages : Nat) (direction : BufferDirection)
  | dealloc (paddr : PhysAddr) (pages : Nat)
deriving DecidableEq

/-- Whether a recorded Hal call is a `dma_dealloc` call. -/
def HCall.isDealloc : HCall → Bool
  | .dealloc _ _ => true
  | .alloc _ _ => false

/-- Whether a recorded Hal call is a `dma_alloc` call. -/
def HCall.isAlloc : HCall → Bool
  | .alloc _ _ => true
  | .dealloc _ _ => false

/-- The `Hal` trait of src/hal.rs: the three methods the `Dma` type uses.
`dma_dealloc` returns an `i32` status, embedded as `Int`. The trait methods
`share` and `unshare` act on caller-owned memory and are never called by the
`Dma` type; the copy-based test implementation of those two methods is
embedded separately below as `fakeShare` and `fakeUnshare`. -/
structure Hal where
  dma_alloc : Nat → BufferDirection → PhysAddr
  dma_dealloc : PhysAddr → Nat → Int
  phys_to_virt : PhysAddr → VirtAddr

/-- The `Dma` struct of src/hal.rs: physical base address and page count.
The `PhantomData<H>` field is a zero-sized compile-time binding; here the
`Hal` implementation is passed explicitly to each operation instead. -/
structure Dma where
  paddr : Nat
  pages : Nat
deriving DecidableEq

/-- `Dma::new` of src/hal.rs, instrumented with the list of Hal calls it
performs: it calls `H::dma_alloc(pages, direction)` once, fails with
`Error::DmaError` when the result is the zero sentinel, and otherwise stores
the returned physical address and the requested page count. -/
def Dma.new (H : Hal) (pages : Nat) (direction : BufferDirection) :
    Except Error Dma × List HCall :=
  let paddr := H.dma_alloc pages direction
  if paddr = 0 then
    (Except.error Error.DmaError, [HCall.alloc pages direction])
  else
    (Except.ok { paddr := paddr, pages := pages }, [HCall.alloc pages direction])

/-- `Dma::vaddr` of src/hal.rs: recomputes `H::phys_to_virt(self.paddr)` on
every call; nothing is cached. -/
def Dma.vaddr (H : Hal) (d : Dma) : VirtAddr :=
  H.phys_to_virt d.paddr

/-- A raw fat-pointer view: starting address and length in bytes, the
embedding of the `NonNull<[u8]>` returned by `Dma::raw_slice`. -/
structure RawSlice where
  addr : VirtAddr
  len : Nat
deriving DecidableEq

/-- `Dma::raw_slice` of src/hal.rs: builds a slice pointer from `self.vaddr()`
and the machine-integer product `self.pages * PAGE_SIZE` (usize
multiplication, hence reduced modulo `USIZE`), then applies
`NonNull::new(...).unwrap()`. `NonNull::new` returns `None` exactly when the
data pointer is null, so the panic path is embedded as `none`. -/
def Dma.raw_slice (H : Hal) (d : Dma) : Option RawSlice :=
  let v := Dma.vaddr H d
  let len := d.pages * PAGE_SIZE % USIZE
  if v = 0 then none else some { addr := v, len := len }

/-- Outcome of running the `Drop` implementation: the Hal calls performed and
whether the `assert_eq!(err, 0, ...)` assertion failed. -/
structure DropOutcome where
  calls : List HCall
  panicked : Bool
deriving DecidableEq

/-- The `Drop for Dma` implementation of src/hal.rs: calls
`H::dma_dealloc(self.paddr, self.pages)` once and asserts that the returned
status is zero; a nonzero status makes the assertion fail
(`panicked = true`). -/
def Dma.drop (H : Hal) (d : Dma) : DropOutcome :=
  let err := H.dma_dealloc d.paddr d.pages
  { calls := [HCall.dealloc d.paddr d.pages], panicked := decide (err ≠ 0) }

/-- Constructing a `Dma` buffer and then immediately dropping it: the trace of
Hal calls performed by `Dma::new` followed, when construction succeeded, by
the calls performed by the `Drop` implementation. -/
def newThenDrop (H : Hal) (pages : Nat) (direction : BufferDirection) :
    List HCall :=
  match Dma.new H pages direction with
  | (Except.ok d, tr) => tr ++ (Dma.drop H d).calls
  | (Except.error _, tr) => tr

/-- Modelled from the spec: `share` of the copy-based test Hal implementation
(declared as `pub mod fake` in src/hal.rs but absent from src/): it copies the
caller's buffer into an internally managed shadow region and hands that region
to the device. Buffer contents are embedded as lists of byte values. -/
def fakeShare (buffer : List Nat) (direction : BufferDirection) : List Nat :=
  buffer

/-- Modelled from the spec: `unshare` of the copy-based test Hal
implementation (declared as `pub mod fake` in src/hal.rs but absent from
src/): for directions that grant the device write access (`DeviceToDriver`,
`Both`) it copies the possibly device-modified shadow contents back into the
original buffer; for `DriverToDevice` no copy-back occurs and the original
buffer contents are kept. The result is the contents of the caller's buffer
after the call. -/
def fakeUnshare (shadow : List Nat) (buffer : List Nat) :
    BufferDirection → List Nat
  | .DeviceToDriver => shadow
  | .Both => shadow
  | .DriverToDevice => buffer

/-- A Hal implementation whose allocator always returns the zero failure
sentinel; used as a concrete witness input. -/
def zeroHal : Hal :=
  { dma_alloc := fun _ _ => 0
    dma_dealloc := fun _ _ => 0
    phys_to_virt := fun p => p }

/-- A Hal implementation whose allocator always returns physical address 1 and
whose deallocator always succeeds, with identity address translation; used as
a concrete witness input. -/
def oneHal : Hal :=
  { dma_alloc := fun _ _ => 1
    dma_dealloc := fun _ _ => 0
    phys_to_virt := fun p => p }

/-- C1: for every page count and direction, `Dma::new` returns the
DMA-allocation error exactly when `H::dma_alloc` returns the zero sentinel,
and the trace of Hal calls it performs never contains a `dma_dealloc` call, so
no deallocation is triggered on the failure path. -/
theorem dma_new_alloc_failure (H : Hal) (pages : Nat)
    (direction : BufferDirection) :
    ((Dma.new H pages direction).1 = Except.error Error.DmaError ↔
      H.dma_alloc pages direction = 0) ∧
    (Dma.new H pages direction).2.filter HCall.isDealloc = [] := by
  constructor
  · by_cases h : H.dma_alloc pages direction = 0 <;>
      simp [Dma.new, h]
  · by_cases h : H.dma_alloc pages direction = 0 <;>
      simp [Dma.new, h, HCall.isDealloc]

/-- C3: for every live `Dma` buffer, `vaddr()` returns exactly
`H::phys_to_virt(paddr())`, recomputed from the stored physical address; since
the embedded translation function is deterministic, consecutive calls agree
definitionally. -/
theorem dma_vaddr_recomputed (H : Hal) (d : Dma) :
    Dma.vaddr H d = H.phys_to_virt (Dma.paddr d) := by
  rfl

/-- C2: for every page count > 0 and direction for which allocation succeeds,
constructing a `Dma` buffer and immediately dropping it performs exactly one
`dma_alloc` call and exactly one `dma_dealloc` call, and the `dma_dealloc`
call receives the physical address returned by `dma_alloc` and the page count
passed to construction. -/
theorem dma_new_then_drop_trace (H : Hal) (pages : Nat)
    (direction : BufferDirection) (hp : 0 < pages)
    (h : H.dma_alloc pages direction ≠ 0) :
    newThenDrop H pages direction =
      [HCall.alloc pages direction,
        HCall.dealloc (H.dma_alloc pages direction) pages] ∧
    (newThenDrop H pages direction).filter HCall.isAlloc =
      [HCall.alloc pages direction] ∧
    (newThenDrop H pages direction).filter HCall.isDealloc =
      [HCall.dealloc (H.dma_alloc pages direction) pages] := by
  refine ⟨?_, ?_, ?_⟩ <;>
    simp [newThenDrop, Dma.new, h, Dma.drop, HCall.isAlloc, HCall.isDealloc]

/-- Witness for C2 at a concrete Hal, page count 2 and direction Both. -/
theorem dma_new_then_drop_trace_witness :
    0 < 2 ∧ oneHal.dma_alloc 2 BufferDirection.Both ≠ 0 ∧
    (newThenDrop oneHal 2 BufferDirection.Both =
      [HCall.alloc 2 BufferDirection.Both,
        HCall.dealloc (oneHal.dma_alloc 2 BufferDirection.Both) 2] ∧
    (newThenDrop oneHal 2 BufferDirection.Both).filter HCall.isAlloc =
      [HCall.alloc 2 BufferDirection.Both] ∧
    (newThenDrop oneHal 2 BufferDirection.Both).filter HCall.isDealloc =
      [HCall.dealloc (oneHal.dma_alloc 2 BufferDirection.Both) 2]) :=
  ⟨by decide, by decide,
    dma_new_then_drop_trace oneHal 2 BufferDirection.Both (by decide) (by decide)⟩

/-- C4 (amended): for every live `Dma` buffer whose current address
translation is nonzero and whose byte size `pages * PAGE_SIZE` fits in a
usize, `raw_slice` returns a non-null view whose starting address is `vaddr()`
and whose length is `pages * PAGE_SIZE`. -/
theorem dma_raw_slice_view (H : Hal) (d : Dma)
    (hv : H.phys_to_virt (Dma.paddr d) ≠ 0)
    (hfit : Dma.pages d * PAGE_SIZE < USIZE) :
    Dma.raw_slice H d =
      some { addr := Dma.vaddr H d, len := Dma.pages d * PAGE_SIZE } := by
  simp [Dma.raw_slice, Dma.vaddr, hv, Nat.mod_eq_of_lt hfit]

/-- Witness for C4 (amended) at a concrete Hal and a one-page buffer. -/
theorem dma_raw_slice_view_witness :
    oneHal.phys_to_virt (Dma.paddr { paddr := 1, pages := 1 }) ≠ 0 ∧
    Dma.pages ({ paddr := 1, pages := 1 } : Dma) * PAGE_SIZE < USIZE ∧
    Dma.raw_slice oneHal { paddr := 1, pages := 1 } =
      some
        { addr := (Dma.vaddr oneHal { paddr := 1, pages := 1 }),
          len := (Dma.pages ({ paddr := 1, pages := 1 } : Dma)) * PAGE_SIZE } :=
  ⟨by decide, by decide,
    dma_raw_slice_view oneHal { paddr := 1, pages := 1 } (by decide) (by decide)⟩

/-- Counterexample to C4 as stated: with identity translation and page count
2 ^ 52, construction succeeds, so the buffer is live, but the view length is
the wrapped machine product 0, not pageCount times PAGE_SIZE. -/
theorem dma_raw_slice_overflow_cex :
    (Dma.new oneHal (2 ^ 52) BufferDirection.Both).1 =
      Except.ok { paddr := 1, pages := 2 ^ 52 } ∧
    Dma.raw_slice oneHal { paddr := 1, pages := 2 ^ 52 } =
      some { addr := 1, len := 0 } ∧
    (0 : Nat) ≠ 2 ^ 52 * PAGE_SIZE :=
  ⟨rfl, by decide, by decide⟩

/-- C5 (amended): every `Dma` buffer alive after a successful construction has
a nonzero stored physical base address, and its stored page count equals the
page count passed to construction, hence is strictly positive exactly when the
requested page count was. -/
theorem dma_alive_invariants (H : Hal) (pages : Nat)
    (direction : BufferDirection) (d : Dma)
    (h : (Dma.new H pages direction).1 = Except.ok d) :
    Dma.paddr d ≠ 0 ∧ Dma.pages d = pages := by
  by_cases h0 : H.dma_alloc pages direction = 0
  · simp [Dma.new, h0] at h
  · simp [Dma.new, h0] at h
    subst h
    exact ⟨h0, rfl⟩

/-- Witness for C5 (amended) at a concrete Hal, page count 3 and direction
Both. -/
theorem dma_alive_invariants_witness :
    (Dma.new oneHal 3 BufferDirection.Both).1 =
      Except.ok { paddr := 1, pages := 3 } ∧
    (Dma.paddr ({ paddr := 1, pages := 3 } : Dma) ≠ 0 ∧
      Dma.pages ({ paddr := 1, pages := 3 } : Dma) = 3) :=
  ⟨rfl,
    dma_alive_invariants oneHal 3 BufferDirection.Both
      { paddr := 1, pages := 3 } rfl⟩

/-- Counterexample to C5 as stated: `Dma::new` never checks the requested page
count, so a Hal whose allocator returns a nonzero address for a zero-page
request yields a live buffer whose page count is not strictly positive. -/
theorem dma_alive_zero_pages_cex :
    (Dma.new oneHal 0 BufferDirection.Both).1 =
      Except.ok { paddr := 1, pages := 0 } ∧
    ¬ 0 < Dma.pages ({ paddr := 1, pages := 0 } : Dma) :=
  ⟨rfl, by decide⟩

/-- C6: the `Drop` implementation always performs the single `dma_dealloc`
call on the stored address and page count, and completes without the
assertion failing exactly when that call returns status zero; a nonzero status
makes the release assertion fail. -/
theorem dma_drop_assertion (H : Hal) (d : Dma) :
    ((Dma.drop H d).panicked = false ↔
      H.dma_dealloc (Dma.paddr d) (Dma.pages d) = 0) ∧
    (Dma.drop H d).calls = [HCall.dealloc (Dma.paddr d) (Dma.pages d)] := by
  refine ⟨?_, rfl⟩
  simp [Dma.drop]

/-- C7: when construction succeeds, the returned buffer stores exactly the
physical address returned by `dma_alloc` and the page count passed to the
constructor, and `paddr()` returns that stored address. -/
theorem dma_new_success_fields (H : Hal) (pages : Nat)
    (direction : BufferDirection) (d : Dma)
    (h : (Dma.new H pages direction).1 = Except.ok d) :
    Dma.paddr d = H.dma_alloc pages direction ∧ Dma.pages d = pages := by
  by_cases h0 : H.dma_alloc pages direction = 0
  · simp [Dma.new, h0] at h
  · simp [Dma.new, h0] at h
    subst h
    exact ⟨rfl, rfl⟩

/-- Witness for C7 at a concrete Hal, page count 2 and direction
DeviceToDriver. -/
theorem dma_new_success_fields_witness :
    (Dma.new oneHal 2 BufferDirection.DeviceToDriver).1 =
      Except.ok { paddr := 1, pages := 2 } ∧
    (Dma.paddr ({ paddr := 1, pages := 2 } : Dma) =
        oneHal.dma_alloc 2 BufferDirection.DeviceToDriver ∧
      Dma.pages ({ paddr := 1, pages := 2 } : Dma) = 2) :=
  ⟨rfl,
    dma_new_success_fields oneHal 2 BufferDirection.DeviceToDriver
      { paddr := 1, pages := 2 } rfl⟩

/-- C8: sharing a buffer with direction DriverToDevice and then unsharing it
performs no copy-back: whatever modification the device applies to the shadow
copy in between, the contents of the original buffer after unshare are exactly
what they were when share was called. -/
theorem fake_unshare_driver_to_device_no_copy_back (buffer : List Nat)
    (devWrite : List Nat → List Nat) :
    fakeUnshare (devWrite (fakeShare buffer BufferDirection.DriverToDevice))
      buffer BufferDirection.DriverToDevice = buffer :=
  rfl

/-- C9: `raw_slice` returns a view exactly when the translation of the stored
physical address is nonzero; when `phys_to_virt` returns virtual address 0,
the internal `NonNull::new(...).unwrap()` panics (embedded as `none`) instead
of returning a view. -/
theorem dma_raw_slice_nonnull_iff (H : Hal) (d : Dma) :
    (Dma.raw_slice H d).isSome = true ↔
      H.phys_to_virt (Dma.paddr d) ≠ 0 := by
  by_cases h : H.phys_to_virt d.paddr = 0 <;>
    simp [Dma.raw_slice, Dma.vaddr, h]

/-- C10: the length of any view returned by `raw_slice` is the machine-integer
product `pages * PAGE_SIZE` reduced modulo the usize range, and it equals the
mathematical product exactly when that product fits in a usize. -/
theorem dma_raw_slice_len_machine (H : Hal) (d : Dma) (s : RawSlice)
    (h : Dma.raw_slice H d = some s) :
    RawSlice.len s = Dma.pages d * PAGE_SIZE % USIZE ∧
    (RawSlice.len s = Dma.pages d * PAGE_SIZE ↔
      Dma.pages d * PAGE_SIZE < USIZE) := by
  by_cases hv : H.phys_to_virt d.paddr = 0
  · simp [Dma.raw_slice, Dma.vaddr, hv] at h
  · simp only [Dma.raw_slice, Dma.vaddr, if_neg hv, Option.some.injEq] at h
    subst h
    exact ⟨rfl, Nat.mod_eq_iff_lt (by decide)⟩

/-- Witness for C10 at a concrete Hal and a two-page buffer. -/
theorem dma_raw_slice_len_machine_witness :
    Dma.raw_slice oneHal { paddr := 1, pages := 2 } =
      some { addr := 1, len := 8192 } ∧
    (RawSlice.len { addr := 1, len := 8192 } =
        Dma.pages ({ paddr := 1, pages := 2 } : Dma) * PAGE_SIZE % USIZE ∧
      (RawSlice.len { addr := 1, len := 8192 } =
          Dma.pages ({ paddr := 1, pages := 2 } : Dma) * PAGE_SIZE ↔
        Dma.pages ({ paddr := 1, pages := 2 } : Dma) * PAGE_SIZE < USIZE)) :=
  ⟨by decide,
    dma_raw_slice_len_machine oneHal { paddr := 1, pages := 2 }
      { addr := 1, len := 8192 } (by decide)⟩
